import Mathlib

/-!
Verification development for the `egui_elm` crate: an Elm-style runtime
(model / message / update / view / subscription) for egui applications.

Shallow embedding conventions:
* A boxed future `BoxFuture<'static, Option<Message>>` (a command task) is
  modelled by its eventual resolution, a value of type `Option Message`.
* A message stream (`Pin<Box<dyn Stream<Item = Message> + Send>>`) is
  modelled by a syntax tree `SubStream` mirroring the stream combinators the
  crate actually builds (`pending`, `iter`, the interval coroutine,
  `SelectAll`, `StreamExt::map`), together with a small-step emission
  relation `Step` and its multi-step closure `EmitsTrace`.
* The type-erased `SubscriptionToken` (an `Arc<dyn TokenValue>` compared by
  downcast-then-`==`) is modelled by an inductive `TokenValue` covering the
  value shapes the crate and its applications use: `()` (from
  `Subscription::none`), primitive application-chosen values, and
  `Vec<SubscriptionToken>` (the aggregate built by `Subscription::batch`).
  The constructor head plays the role of the runtime type (`TypeId`).
* Durations are carried as plain `Nat` (milliseconds); the embedding does
  not model real time, only emission order.
-/

namespace EguiElm

/-- Runtime type tag of the value stored inside a `SubscriptionToken`:
the model's counterpart of `TypeId` used by the `Any` downcast in
`TokenValueImpl::equals`. -/
inductive TokenTy where
  | unitTy
  | natTy
  | strTy
  | boolTy
  | listTy
deriving DecidableEq, Repr

/-- Value stored inside a `SubscriptionToken` (`TokenValueImpl<T>` for the
`T`s occurring in the crate: `()` from `Subscription::none`,
`Vec<SubscriptionToken>` from `Subscription::batch`, and primitive
application-chosen token types). -/
inductive TokenValue where
  | unit : TokenValue
  | nat : Nat → TokenValue
  | str : String → TokenValue
  | bool : Bool → TokenValue
  | list : List TokenValue → TokenValue
deriving Repr

/-- The runtime type of the stored value (which `TokenValueImpl<T>`
instantiation the token was built from). -/
def TokenValue.ty : TokenValue → TokenTy
  | .unit => .unitTy
  | .nat _ => .natTy
  | .str _ => .strTy
  | .bool _ => .boolTy
  | .list _ => .listTy

mutual

/-- `TokenValueImpl::<T>::equals`: downcast the other value to the same
`TokenValueImpl<T>`; on success compare the payloads with `T`'s `==`
(`Vec<SubscriptionToken>`'s `==` is element-wise `SubscriptionToken`
equality, i.e. `equals` again), on downcast failure return `false`. -/
def TokenValue.equals : TokenValue → TokenValue → Bool
  | .unit, .unit => true
  | .nat x, .nat y => x == y
  | .str x, .str y => x == y
  | .bool x, .bool y => x == y
  | .list xs, .list ys => TokenValue.listEquals xs ys
  | _, _ => false

/-- `Vec<SubscriptionToken>`'s `PartialEq`: same length and element-wise
`SubscriptionToken::eq`. -/
def TokenValue.listEquals : List TokenValue → List TokenValue → Bool
  | [], [] => true
  | x :: xs, y :: ys => TokenValue.equals x y && TokenValue.listEquals xs ys
  | _, _ => false

end

/-- `SubscriptionToken` is an `Arc<dyn TokenValue>`; the `Arc` is only
sharing, so the model identifies the token with its stored value. -/
abbrev SubscriptionToken := TokenValue

/-- `impl PartialEq for SubscriptionToken`: delegates to
`TokenValue::equals`. -/
def SubscriptionToken.eq (a b : SubscriptionToken) : Bool :=
  TokenValue.equals a b

/-- Syntax of the message streams the crate builds.  Constructors mirror the
stream values occurring in `subscription.rs`:
`futures::stream::pending()`, `futures::stream::iter(vec)`, the
`interval_with` coroutine (its `FnMut` factory is modelled as a function of
the invocation count), `SelectAll` (members indexed by `Fin n`), and
`StreamExt::map`. -/
inductive SubStream : Type u → Type (u + 1) where
  | pending : {α : Type u} → SubStream α
  | ofList : {α : Type u} → List α → SubStream α
  | interval : {α : Type u} → Nat → (Nat → α) → SubStream α
  | selectAll : {α : Type u} → {n : Nat} → (Fin n → SubStream α) → SubStream α
  | mapS : {α β : Type u} → (α → β) → SubStream α → SubStream β

/-- One emission step of a stream: `Step s a s'` says polling `s` can yield
the message `a`, leaving the residual stream `s'`.  `pending` has no rule
(it never becomes ready); `selectAll` may emit from whichever member is
ready first (first-ready-wins, no fixed priority), mirroring
`futures::stream::SelectAll`. -/
inductive Step : {α : Type u} → SubStream α → α → SubStream α → Prop where
  | ofList {α : Type u} {a : α} {rest : List α} :
      Step (.ofList (a :: rest)) a (.ofList rest)
  | interval {α : Type u} {d : Nat} {f : Nat → α} :
      Step (.interval d f) (f 0) (.interval d fun n => f (n + 1))
  | selectAll {α : Type u} {n : Nat} {ss : Fin n → SubStream α} {i : Fin n}
      {a : α} {s' : SubStream α} :
      Step (ss i) a s' → Step (.selectAll ss) a (.selectAll (Function.update ss i s'))
  | mapS {α β : Type u} {f : α → β} {s s' : SubStream α} {a : α} :
      Step s a s' → Step (.mapS f s) (f a) (.mapS f s')

/-- Multi-step emission: `EmitsTrace s as t` says stream `s` can emit the
finite sequence `as`, in order, and be left as `t`. -/
inductive EmitsTrace : {α : Type u} → SubStream α → List α → SubStream α → Prop where
  | nil {α : Type u} {s : SubStream α} : EmitsTrace s [] s
  | cons {α : Type u} {s s' t : SubStream α} {a : α} {as : List α} :
      Step s a s' → EmitsTrace s' as t → EmitsTrace s (a :: as) t

/-- `Subscription<Message>`: a boxed stream plus an optional identity
token. -/
structure Subscription (Msg : Type u) : Type (u + 1) where
  stream : SubStream Msg
  token : Option SubscriptionToken

/-- `Subscription::none()`: a never-emitting `pending` stream with the
stable empty identity `SubscriptionToken::new(())`. -/
def Subscription.none : Subscription Msg :=
  { stream := .pending, token := some .unit }

/-- `Subscription::from_stream(stream)`: wraps the stream with no token. -/
def Subscription.from_stream (s : SubStream Msg) : Subscription Msg :=
  { stream := s, token := Option.none }

/-- One iteration of the `for` loop in `Subscription::batch`: push a present
token onto `tokens`, record a missing one in `missing_identity`, and push
the member's stream onto the `SelectAll`.  The accumulator is
`(tokens, missing_identity, select_all)`. -/
def Subscription.batchStep (acc : List SubscriptionToken × Bool × List (SubStream Msg))
    (s : Subscription Msg) : List SubscriptionToken × Bool × List (SubStream Msg) :=
  match s.token with
  | some token => (acc.1 ++ [token], acc.2.1, acc.2.2 ++ [s.stream])
  | Option.none => (acc.1, true, acc.2.2 ++ [s.stream])

/-- A `SelectAll` collection holding the streams of `ss`, in order. -/
def selectAllOf (ss : List (SubStream Msg)) : SubStream Msg :=
  .selectAll fun i : Fin ss.length => ss.get i

/-- `Subscription::batch(subscriptions)`: fold the loop over the members,
then combine: the stream is the `SelectAll` of all member streams, and the
token is `None` if any member lacked one, else
`Some(SubscriptionToken::new(tokens))`. -/
def Subscription.batch (subscriptions : List (Subscription Msg)) : Subscription Msg :=
  let folded := subscriptions.foldl Subscription.batchStep ([], false, [])
  { stream := selectAllOf folded.2.2
    token := if folded.2.1 then Option.none else some (.list folded.1) }

/-- `Subscription::interval_with(duration, message_factory)`: the
sleep-then-yield coroutine wrapped by `from_stream` (hence no token).  The
`FnMut` factory is modelled as a function of how many times it has been
invoked. -/
def Subscription.interval_with (duration : Nat) (message_factory : Nat → Msg) :
    Subscription Msg :=
  Subscription.from_stream (.interval duration message_factory)

/-- `Subscription::interval(duration, message)`: `interval_with` with a
factory cloning the fixed message. -/
def Subscription.interval (duration : Nat) (message : Msg) : Subscription Msg :=
  Subscription.interval_with duration fun _ => message

/-- `Subscription::map(f)`: wrap the stream in `StreamExt::map(f)` and carry
the source's token over unchanged (`with_token_option(self.token)`). -/
def Subscription.map (s : Subscription α) (f : α → β) : Subscription β :=
  { stream := .mapS f s.stream, token := s.token }

/-- `Subscription::with_token(t)`: attach `SubscriptionToken::new(t)`. -/
def Subscription.with_token (s : Subscription Msg) (t : SubscriptionToken) :
    Subscription Msg :=
  { s with token := some t }

/-- `Subscription::identity` (via the `IntoSubscription` impl): clone of the
stored token. -/
def Subscription.identity (s : Subscription Msg) : Option SubscriptionToken :=
  s.token

/-- `Command<Message>`: an ordered list of boxed future tasks, each modelled
by its eventual resolution `Option Message`. -/
structure Command (Msg : Type u) : Type u where
  tasks : List (Option Msg)

/-- `Command::none()`: empty task list. -/
def Command.none : Command Msg :=
  { tasks := [] }

/-- `Command::from_optional_future(future)`: a single task whose resolution
is the future's output. -/
def Command.from_optional_future (resolution : Option Msg) : Command Msg :=
  { tasks := [resolution] }

/-- `Command::message(m)`: a single task resolving immediately to
`Some(m)`. -/
def Command.message (m : Msg) : Command Msg :=
  Command.from_optional_future (some m)

/-- `Command::async_(future)`: wraps a future resolving to `result` as a
single task resolving to `Some(result)`. -/
def Command.async_ (result : Msg) : Command Msg :=
  Command.from_optional_future (some result)

/-- `Command::perform(op)`: wraps a synchronous computation producing
`result` as a single task resolving to `Some(result)`. -/
def Command.perform (result : Msg) : Command Msg :=
  Command.from_optional_future (some result)

/-- `Command::batch(commands)`: `flat_map` of the members' task lists, in
input order; no task is run during batching. -/
def Command.batch (commands : List (Command Msg)) : Command Msg :=
  { tasks := commands.flatMap Command.tasks }

/-- `Command::map(f)`: each task's future is wrapped so its resolution
`maybe_message` becomes `maybe_message.map(f)`; applied when the task
resolves, so on the modelled resolutions it is `Option.map f`. -/
def Command.map (c : Command α) (f : α → β) : Command β :=
  { tasks := c.tasks.map fun task => task.map f }

/-- `Command::into_futures`: hands the task list to the driver. -/
def Command.into_futures (c : Command Msg) : List (Option Msg) :=
  c.tasks

/-- The slice of `ElmApp`'s state that `restart_subscription` reads and
writes: the running subscription task (a spawned task is identified by the
stream it was spawned from) and the stored identity token. -/
structure SubsState (Msg : Type u) : Type (u + 1) where
  subscription_task : Option (SubStream Msg)
  subscription_token : Option SubscriptionToken

/-- `ElmApp::restart_subscription`, given the freshly derived subscription
`sub = (self.program.subscription)(&self.model)`.  Returns the new state
together with the aborted task, if any: `none` when the early `return` was
taken (both tokens present and equal) or when no task was running.
Otherwise the old task is aborted, a new task is spawned from
`sub.into_stream()`, and the stored token is replaced by `sub.identity()`. -/
def ElmApp.restart_subscription (st : SubsState Msg) (sub : Subscription Msg) :
    SubsState Msg × Option (SubStream Msg) :=
  let identity := sub.identity
  let keep :=
    match st.subscription_token, identity with
    | some previous, some current => SubscriptionToken.eq previous current
    | _, _ => false
  if keep then
    (st, Option.none)
  else
    ({ subscription_task := some sub.stream, subscription_token := identity },
      st.subscription_task)

namespace AsyncLoader

/-- Model of `examples/async_loader.rs`: the `AsyncApp` struct
(`request_count` is a `u32`, kept as a `Nat` reduced mod `2 ^ 32` at each
increment). -/
structure AsyncApp where
  data : Option String
  loading : Bool
  request_count : Nat
deriving DecidableEq, Repr

/-- The example's `Message` enum. -/
inductive Message where
  | load : Message
  | dataLoaded : String → Message
deriving DecidableEq, Repr

/-- `init()`: initial model and `Command::none()`. -/
def init : AsyncApp × Command Message :=
  ({ data := Option.none, loading := false, request_count := 0 }, Command.none)

/-- `update(model, message)`: the example's update function.  The spawned
future sleeps, then resolves to `DataLoaded` with the formatted request id;
the model is returned alongside the command (Rust mutates it in place). -/
def update (model : AsyncApp) (message : Message) : AsyncApp × Command Message :=
  match message with
  | .load =>
    if model.loading then
      (model, Command.none)
    else
      let model := { model with loading := true }
      let request_id := (model.request_count + 1) % 2 ^ 32
      (model,
        Command.async_
          (Message.dataLoaded ("Async request #" ++ toString request_id ++ " complete")))
  | .dataLoaded payload =>
    ({ model with
        loading := false
        request_count := (model.request_count + 1) % 2 ^ 32
        data := some payload },
      Command.none)

end AsyncLoader

namespace CounterExample

/-- Model of `examples/counter.rs`: the `Counter` struct (`count` is an
`i32`, kept as an `Int`; the claims under study never reach its bounds). -/
structure Counter where
  count : Int
  auto : Bool
deriving DecidableEq, Repr

/-- The example's `Message` enum. -/
inductive Message where
  | increment : Message
  | decrement : Message
  | toggleAuto : Bool → Message
  | tick : Message
deriving DecidableEq, Repr

/-- `subscription(model)`: `interval(1s, Tick)` while `auto` is on, else
`none()` (durations in milliseconds). -/
def subscription (model : Counter) : Subscription Message :=
  if model.auto then
    Subscription.interval 1000 Message.tick
  else
    Subscription.none

end CounterExample

/-! Helper lemmas shared by the claim theorems. -/

/-- `futures::stream::pending()` never becomes ready: it has no emission
step. -/
lemma pending_no_step {α : Type u} (a : α) (s' : SubStream α) :
    ¬ Step SubStream.pending a s' := by
  intro h
  cases h

/-- Every finite trace of the `pending` stream is empty and leaves the
stream as `pending`. -/
lemma pending_trace {α : Type u} (vs : List α) (t : SubStream α)
    (h : EmitsTrace SubStream.pending vs t) : vs = [] ∧ t = SubStream.pending := by
  cases h with
  | nil => exact ⟨rfl, rfl⟩
  | cons hs _ => cases hs

/-- Inversion for a step of a mapped stream: it is a step of the source
with the emitted message transformed. -/
lemma step_mapS_inv {α β : Type u} {f : α → β} {s : SubStream α} {b : β}
    {u : SubStream β} (h : Step (.mapS f s) b u) :
    ∃ a s', b = f a ∧ Step s a s' ∧ u = SubStream.mapS f s' := by
  cases h with
  | mapS hs => exact ⟨_, _, rfl, hs, rfl⟩

/-- `futures::stream::iter(vs)` emits exactly `vs`, in order. -/
lemma ofList_trace {α : Type u} (vs : List α) :
    EmitsTrace (SubStream.ofList vs) vs (SubStream.ofList []) := by
  induction vs with
  | nil => exact .nil
  | cons a rest ih => exact .cons .ofList ih

/-- A trace of the source stream induces the pointwise-mapped trace of the
mapped stream. -/
lemma emitsTrace_mapS {α β : Type u} (f : α → β) {s t : SubStream α} {vs : List α}
    (h : EmitsTrace s vs t) : EmitsTrace (.mapS f s) (vs.map f) (.mapS f t) := by
  induction h with
  | nil => exact .nil
  | cons hs _ ih => exact .cons (.mapS hs) ih

/-- Conversely, every trace of a mapped stream is the pointwise image of a
trace of the source. -/
lemma emitsTrace_mapS_inv {α β : Type u} {f : α → β} {s : SubStream α}
    {ws : List β} {u : SubStream β} (h : EmitsTrace (.mapS f s) ws u) :
    ∃ vs t, ws = vs.map f ∧ EmitsTrace s vs t ∧ u = SubStream.mapS f t := by
  generalize hm : SubStream.mapS f s = ms at h
  induction h generalizing s with
  | nil => exact ⟨[], s, rfl, .nil, hm.symm⟩
  | cons hs _ ih =>
    subst hm
    obtain ⟨a, s', rfl, hstep, rfl⟩ := step_mapS_inv hs
    obtain ⟨vs, t, rfl, htr, rfl⟩ := ih rfl
    exact ⟨a :: vs, t, rfl, .cons hstep htr, rfl⟩

/-- Inversion for a step of a `SelectAll` stream: it is a step of one of
the members, with that member replaced by its residual. -/
lemma step_selectAll_inv {α : Type u} {n : Nat} {ss : Fin n → SubStream α}
    {a : α} {t : SubStream α} (h : Step (.selectAll ss) a t) :
    ∃ (i : Fin n) (s' : SubStream α),
      Step (ss i) a s' ∧ t = SubStream.selectAll (Function.update ss i s') := by
  cases h with
  | selectAll hs => exact ⟨_, _, hs, rfl⟩

/-- Closed form of the `for` loop in `Subscription::batch`: the collected
tokens are the present ones in order, `missing_identity` records whether
any member lacked one, and the streams are collected in order. -/
lemma batch_fold {Msg : Type u} (subs : List (Subscription Msg))
    (ts : List SubscriptionToken) (m : Bool) (ss : List (SubStream Msg)) :
    subs.foldl Subscription.batchStep (ts, m, ss) =
      (ts ++ subs.filterMap Subscription.token,
        (m || subs.any fun s => s.token.isNone),
        ss ++ subs.map Subscription.stream) := by
  induction subs generalizing ts m ss with
  | nil => simp
  | cons s rest ih =>
    cases htok : s.token with
    | none =>
      simp only [List.foldl_cons, Subscription.batchStep, htok, ih,
        List.filterMap_cons, List.any_cons, List.map_cons, htok]
      simp [htok]
    | some tok =>
      simp only [List.foldl_cons, Subscription.batchStep, htok, ih,
        List.filterMap_cons, List.any_cons, List.map_cons, htok]
      simp [htok]

/-- In `Subscription::batch`, `missing_identity` ends up `true` exactly
when not every member supplied a token. -/
lemma any_isNone_eq_not_all_isSome {Msg : Type u} (subs : List (Subscription Msg)) :
    (subs.any fun s => s.token.isNone) = !(subs.all fun s => s.token.isSome) := by
  induction subs with
  | nil => rfl
  | cons s rest ih => cases htok : s.token <;> simp [htok, ih]

/-- `Vec<SubscriptionToken>` equality is: equal lengths and element-wise
token equality. -/
lemma listEquals_iff (xs ys : List TokenValue) :
    TokenValue.listEquals xs ys = true ↔
      xs.length = ys.length ∧
        ∀ i (hx : i < xs.length) (hy : i < ys.length),
          TokenValue.equals (xs.get ⟨i, hx⟩) (ys.get ⟨i, hy⟩) = true := by
  induction xs generalizing ys with
  | nil =>
    cases ys with
    | nil => simp [TokenValue.listEquals]
    | cons y ys => simp [TokenValue.listEquals]
  | cons x xs ih =>
    cases ys with
    | nil => simp [TokenValue.listEquals]
    | cons y ys =>
      simp only [TokenValue.listEquals, Bool.and_eq_true, ih]
      constructor
      · rintro ⟨hxy, hlen, hall⟩
        refine ⟨by simp [hlen], ?_⟩
        intro i hx hy
        match i with
        | 0 => exact hxy
        | Nat.succ j => exact hall j (by simpa using hx) (by simpa using hy)
      · rintro ⟨hlen, hall⟩
        refine ⟨hall 0 (by simp) (by simp), by simpa using hlen, ?_⟩
        intro i hx hy
        exact hall (i + 1) (by simpa using hx) (by simpa using hy)

/-! Claim theorems. -/

/-- C1: the driver's per-frame identity-diff step.  Given stored previous
token `P` and the newly derived subscription's token `N`: if both are
present and `P == N`, the running task and the stored token are left
unchanged and nothing is aborted; in every other case (`P` absent, `N`
absent, or `P != N`) the old running task (if any) is aborted, a new stream
task is started from the newly derived subscription, and the stored token
is replaced with `N` — handle and token change together or not at all. -/
theorem C1_restart_identity_diff {Msg : Type} (st : SubsState Msg)
    (sub : Subscription Msg) :
    (∀ p n, st.subscription_token = some p → sub.identity = some n →
        SubscriptionToken.eq p n = true →
        ElmApp.restart_subscription st sub = (st, Option.none)) ∧
    ((st.subscription_token = Option.none ∨ sub.identity = Option.none ∨
        ∃ p n, st.subscription_token = some p ∧ sub.identity = some n ∧
          SubscriptionToken.eq p n = false) →
      ElmApp.restart_subscription st sub =
        ({ subscription_task := some sub.stream, subscription_token := sub.identity },
          st.subscription_task)) := by
  constructor
  · intro p n hp hn heq
    simp [ElmApp.restart_subscription, hp, hn, heq]
  · rintro (hP | hN | ⟨p, n, hp, hn, hne⟩)
    · cases hN : sub.identity <;>
        simp [ElmApp.restart_subscription, hP, hN]
    · cases hP : st.subscription_token <;>
        simp [ElmApp.restart_subscription, hP, hN]
    · simp [ElmApp.restart_subscription, hp, hn, hne]

/-- C1 witness: a matching-token diff keeps state and aborts nothing; a
mismatched-token diff replaces both fields and aborts the old task. -/
theorem C1_restart_identity_diff_witness :
    (ElmApp.restart_subscription
        ⟨some SubStream.pending, some (TokenValue.nat 1)⟩
        ((Subscription.interval 5 (0 : Nat)).with_token (TokenValue.nat 1)) =
      (⟨some SubStream.pending, some (TokenValue.nat 1)⟩, Option.none)) ∧
    (ElmApp.restart_subscription
        ⟨some SubStream.pending, some (TokenValue.nat 1)⟩
        ((Subscription.interval 5 (0 : Nat)).with_token (TokenValue.nat 2)) =
      (⟨some (SubStream.interval 5 fun _ => 0), some (TokenValue.nat 2)⟩,
        some SubStream.pending)) := by
  constructor
  · exact (C1_restart_identity_diff _ _).1 _ _ rfl rfl (by decide)
  · exact (C1_restart_identity_diff _ _).2
      (Or.inr (Or.inr ⟨TokenValue.nat 1, TokenValue.nat 2, rfl, rfl, by decide⟩))

/-- C2: `Command::batch` concatenates the members' task lists, in input
order, without running, dropping or duplicating any task, so its task
count is the sum of the members' task counts. -/
theorem C2_command_batch {Msg : Type} (commands : List (Command Msg)) :
    (Command.batch commands).tasks = (commands.map Command.tasks).flatten ∧
    (Command.batch commands).tasks.length =
      (commands.map fun c => c.tasks.length).sum := by
  constructor
  · simp [Command.batch, List.flatMap]
  · simp only [Command.batch, List.length_flatMap]
    congr 1

/-- C2 witness: batching two concrete commands concatenates their tasks. -/
theorem C2_command_batch_witness :
    (Command.batch [Command.mk [some 1, Option.none], Command.mk [some 2]]).tasks
        = [some 1, Option.none, some 2] ∧
    (Command.batch [Command.mk [some 1, Option.none],
        (Command.mk [some 2] : Command Nat)]).tasks.length = 3 := by
  have h := C2_command_batch [Command.mk [some 1, Option.none], Command.mk [some 2]]
  exact ⟨by rw [h.1]; rfl, by rw [h.2]; rfl⟩

/-- C3: `Command::map(f)` keeps the task count, transforms every eventual
`Some(m)` resolution into `Some(f m)` and keeps every `None` resolution as
`None` (all at resolution time, on the modelled resolutions); and a
command with zero tasks — in particular `Command::none()` — still has zero
tasks after any number of `map` calls. -/
theorem C3_command_map {α β : Type} (c : Command α) (f : α → β) :
    ((c.map f).tasks.length = c.tasks.length) ∧
    (∀ i : Nat, (c.map f).tasks[i]? = (c.tasks[i]?).map fun task => task.map f) ∧
    (∀ (i : Nat) (m : α), c.tasks[i]? = some (some m) →
        (c.map f).tasks[i]? = some (some (f m))) ∧
    (∀ i : Nat, c.tasks[i]? = some Option.none →
        (c.map f).tasks[i]? = some Option.none) ∧
    ((Command.none : Command α).tasks = []) ∧
    (c.tasks = [] → (c.map f).tasks = []) := by
  refine ⟨by simp [Command.map], ?_, ?_, ?_, rfl, ?_⟩
  · intro i
    simp [Command.map]
  · intro i m hi
    simp [Command.map, hi]
  · intro i hi
    simp [Command.map, hi]
  · intro h
    simp [Command.map, h]

/-- C3 witness: mapping a concrete two-task command transforms the `Some`
resolution, keeps the `None` resolution, and keeps `none()` empty. -/
theorem C3_command_map_witness :
    (((Command.mk [some 1, Option.none]).map Nat.succ).tasks[0]? = some (some 2)) ∧
    (((Command.mk [some 1, Option.none]).map Nat.succ).tasks[1]? = some Option.none) ∧
    (((Command.none : Command Nat).map Nat.succ).tasks = []) := by
  refine ⟨(C3_command_map _ _).2.2.1 0 1 rfl, (C3_command_map _ _).2.2.2.1 1 rfl,
    (C3_command_map (Command.none : Command Nat) Nat.succ).2.2.2.2.2 rfl⟩

/-- C4: `Subscription::none()` carries the present token
`SubscriptionToken::new(())`, any two such tokens compare equal, its
stream never emits (every finite trace is empty and leaves the stream
unchanged), and diffing a `none()` subscription against the token stored
by a previous `none()` frame keeps the running task and aborts nothing. -/
theorem C4_none_identity {Msg : Type} :
    ((Subscription.none : Subscription Msg).token = some TokenValue.unit) ∧
    (SubscriptionToken.eq TokenValue.unit TokenValue.unit = true) ∧
    (∀ (vs : List Msg) t,
      EmitsTrace (Subscription.none : Subscription Msg).stream vs t →
        vs = [] ∧ t = (Subscription.none : Subscription Msg).stream) ∧
    (∀ task : Option (SubStream Msg),
      ElmApp.restart_subscription
          ⟨task, (Subscription.none : Subscription Msg).token⟩ Subscription.none =
        (⟨task, (Subscription.none : Subscription Msg).token⟩, Option.none)) := by
  refine ⟨rfl, rfl, ?_, ?_⟩
  · intro vs t h
    exact pending_trace vs t h
  · intro task
    rfl

/-- C4 witness: the empty trace of `none()`'s stream, and a concrete
consecutive-frame diff of `none()` that keeps the running task. -/
theorem C4_none_identity_witness :
    (([] : List Nat) = [] ∧
      (Subscription.none : Subscription Nat).stream =
        (Subscription.none : Subscription Nat).stream) ∧
    (ElmApp.restart_subscription
        (⟨some SubStream.pending, (Subscription.none : Subscription Nat).token⟩ :
          SubsState Nat)
        (Subscription.none : Subscription Nat) =
      ((⟨some SubStream.pending, (Subscription.none : Subscription Nat).token⟩ :
          SubsState Nat),
        Option.none)) :=
  ⟨(@C4_none_identity Nat).2.2.1 [] (Subscription.none : Subscription Nat).stream .nil,
    (@C4_none_identity Nat).2.2.2 (some SubStream.pending)⟩

/-- C5: `SubscriptionToken` equality is `false` whenever the underlying
values have different runtime types, and for values of the same type it
delegates to that type's own equality (`==` of the payload; for the
`Vec<SubscriptionToken>` payload, length plus element-wise token
equality). -/
theorem C5_token_equality :
    (∀ a b : TokenValue, TokenValue.ty a ≠ TokenValue.ty b →
        SubscriptionToken.eq a b = false) ∧
    (SubscriptionToken.eq TokenValue.unit TokenValue.unit = true) ∧
    (∀ x y : Nat, SubscriptionToken.eq (.nat x) (.nat y) = (x == y)) ∧
    (∀ x y : String, SubscriptionToken.eq (.str x) (.str y) = (x == y)) ∧
    (∀ x y : Bool, SubscriptionToken.eq (.bool x) (.bool y) = (x == y)) ∧
    (∀ xs ys : List TokenValue,
      SubscriptionToken.eq (.list xs) (.list ys) = TokenValue.listEquals xs ys) ∧
    (∀ xs ys : List TokenValue, TokenValue.listEquals xs ys = true ↔
      xs.length = ys.length ∧
        ∀ i (hx : i < xs.length) (hy : i < ys.length),
          SubscriptionToken.eq (xs.get ⟨i, hx⟩) (ys.get ⟨i, hy⟩) = true) := by
  refine ⟨?_, rfl, fun x y => rfl, fun x y => rfl, fun x y => rfl, fun xs ys => rfl,
    fun xs ys => listEquals_iff xs ys⟩
  intro a b h
  cases a <;> cases b <;> first | rfl | exact absurd rfl h

/-- C5 witness: tokens of different underlying types (a number and a
boolean) compare unequal, and the list characterization at a concrete
singleton pair. -/
theorem C5_token_equality_witness :
    (SubscriptionToken.eq (TokenValue.nat 0) (TokenValue.bool false) = false) ∧
    (TokenValue.listEquals [TokenValue.nat 3] [TokenValue.nat 3] = true) := by
  constructor
  · exact C5_token_equality.1 (TokenValue.nat 0) (TokenValue.bool false) (by decide)
  · refine (C5_token_equality.2.2.2.2.2.2 [TokenValue.nat 3] [TokenValue.nat 3]).mpr
      ⟨rfl, ?_⟩
    intro i hx hy
    match i, hx with
    | 0, _ => rfl

/-- C6: `Subscription::batch` fans all member streams into one `SelectAll`
stream — a merged stream steps exactly when some member steps, with that
member's emission — and its token is `Some` of the aggregate
`Vec<SubscriptionToken>` of the member tokens exactly when every member
supplied one (`None` if at least one member lacked one); the aggregate
compares unequal as soon as any member token compares unequal. -/
theorem C6_subscription_batch {Msg : Type} (subs : List (Subscription Msg)) :
    ((Subscription.batch subs).stream = selectAllOf (subs.map Subscription.stream)) ∧
    ((Subscription.batch subs).token =
      if subs.all fun s => s.token.isSome then
        some (TokenValue.list (subs.filterMap Subscription.token))
      else Option.none) ∧
    (∀ (n : Nat) (ss : Fin n → SubStream Msg) (i : Fin n) (a : Msg)
        (s' : SubStream Msg),
      Step (ss i) a s' →
        Step (.selectAll ss) a (.selectAll (Function.update ss i s'))) ∧
    (∀ (n : Nat) (ss : Fin n → SubStream Msg) (a : Msg) (t : SubStream Msg),
      Step (.selectAll ss) a t →
        ∃ i s', Step (ss i) a s' ∧
          t = SubStream.selectAll (Function.update ss i s')) ∧
    (∀ ts us : List TokenValue, ts.length = us.length →
      (∃ (i : Nat) (hx : i < ts.length) (hy : i < us.length),
        SubscriptionToken.eq (ts.get ⟨i, hx⟩) (us.get ⟨i, hy⟩) = false) →
      SubscriptionToken.eq (TokenValue.list ts) (TokenValue.list us) = false) := by
  refine ⟨?_, ?_, ?_, ?_, ?_⟩
  · simp [Subscription.batch, batch_fold]
  · simp only [Subscription.batch, batch_fold, Bool.false_or, List.nil_append,
      any_isNone_eq_not_all_isSome]
    cases hall : subs.all fun s => s.token.isSome <;> simp
  · intro n ss i a s' h
    exact Step.selectAll h
  · intro n ss a t h
    exact step_selectAll_inv h
  · intro ts us hlen ⟨i, hx, hy, hne⟩
    cases h : TokenValue.listEquals ts us with
    | false => exact h
    | true =>
      have hfalse : TokenValue.equals (ts.get ⟨i, hx⟩) (us.get ⟨i, hy⟩) = false := hne
      rw [((listEquals_iff ts us).mp h).2 i hx hy] at hfalse
      exact absurd hfalse (by simp)

/-- C6 witness: batching a tokened and a token-less member yields a `None`
token, batching two tokened members aggregates their tokens; a member step
lifts into the merged stream and inverts back; and aggregates differing at
one position compare unequal. -/
theorem C6_subscription_batch_witness :
    ((Subscription.batch
        [Subscription.none, Subscription.from_stream (SubStream.ofList [1])]).token
      = Option.none) ∧
    ((Subscription.batch
        [Subscription.none, (Subscription.from_stream
            (SubStream.ofList [1])).with_token (TokenValue.nat 7)]).token
      = some (TokenValue.list [TokenValue.unit, TokenValue.nat 7])) ∧
    (Step (SubStream.selectAll fun _ : Fin 1 => SubStream.ofList [5]) 5
      (SubStream.selectAll
        (Function.update (fun _ : Fin 1 => SubStream.ofList ([5] : List Nat)) 0
          (SubStream.ofList [])))) ∧
    (∃ (i : Fin 1) (s' : SubStream Nat),
      Step ((fun _ : Fin 1 => SubStream.ofList [5]) i) 5 s' ∧
        SubStream.selectAll
            (Function.update (fun _ : Fin 1 => SubStream.ofList ([5] : List Nat)) 0
              (SubStream.ofList [])) =
          SubStream.selectAll
            (Function.update (fun _ : Fin 1 => SubStream.ofList ([5] : List Nat)) i s')) ∧
    (SubscriptionToken.eq (TokenValue.list [TokenValue.nat 1])
        (TokenValue.list [TokenValue.nat 2]) = false) := by
  refine ⟨?_, ?_, ?_, ?_, ?_⟩
  · rw [(C6_subscription_batch _).2.1]
    rfl
  · rw [(C6_subscription_batch _).2.1]
    rfl
  · exact (C6_subscription_batch ([] : List (Subscription Nat))).2.2.1 1 _ 0 5 _ .ofList
  · exact (C6_subscription_batch ([] : List (Subscription Nat))).2.2.2.1 1 _ 5 _
      (Step.selectAll .ofList)
  · exact (C6_subscription_batch ([] : List (Subscription Nat))).2.2.2.2
      [TokenValue.nat 1] [TokenValue.nat 2] rfl ⟨0, by decide, by decide, by decide⟩

/-- C7: `Subscription::map(f)` leaves the identity token unchanged, and
the mapped stream's traces are exactly the pointwise `f`-images of the
source stream's traces; in particular a wrapped finite stream of values
`vs` emits exactly `vs.map f`, in order. -/
theorem C7_subscription_map {α β : Type} (s : Subscription α) (f : α → β) :
    ((s.map f).token = s.token) ∧
    (∀ (vs : List α) (t : SubStream α), EmitsTrace s.stream vs t →
        EmitsTrace (s.map f).stream (vs.map f) (SubStream.mapS f t)) ∧
    (∀ (ws : List β) (u : SubStream β), EmitsTrace (s.map f).stream ws u →
        ∃ vs t, ws = vs.map f ∧ EmitsTrace s.stream vs t ∧ u = SubStream.mapS f t) ∧
    (∀ values : List α,
      EmitsTrace ((Subscription.from_stream (SubStream.ofList values)).map f).stream
        (values.map f) (SubStream.mapS f (SubStream.ofList []))) := by
  refine ⟨rfl, ?_, ?_, ?_⟩
  · intro vs t h
    exact emitsTrace_mapS f h
  · intro ws u h
    exact emitsTrace_mapS_inv h
  · intro values
    exact emitsTrace_mapS f (ofList_trace values)

/-- C7 witness: mapping a concrete tokened finite subscription keeps the
token and emits the mapped values in order. -/
theorem C7_subscription_map_witness :
    ((((Subscription.from_stream (SubStream.ofList [1, 2])).with_token
        (TokenValue.nat 9)).map Nat.succ).token = some (TokenValue.nat 9)) ∧
    (EmitsTrace
      (((Subscription.from_stream (SubStream.ofList [1, 2])).with_token
          (TokenValue.nat 9)).map Nat.succ).stream
      [2, 3] (SubStream.mapS Nat.succ (SubStream.ofList []))) := by
  constructor
  · exact (C7_subscription_map _ Nat.succ).1
  · exact (C7_subscription_map ((Subscription.from_stream
        (SubStream.ofList [1, 2])).with_token (TokenValue.nat 9)) Nat.succ).2.1
      [1, 2] (SubStream.ofList [])
      (EmitsTrace.cons .ofList (EmitsTrace.cons .ofList .nil))

/-- C8: the async-loader example.  From `init`'s model (`loading = false`,
`data = None`, `request_count = 0`), `Load` sets `loading = true` and
returns a command with exactly one scheduled task; `Load` while already
loading returns `Command::none()` (zero tasks) and leaves the model
unchanged; applying `DataLoaded("payload")` afterwards gives
`loading = false`, `data = Some("payload")`, `request_count = 1`. -/
theorem C8_async_loader_scenario :
    (AsyncLoader.init.1.loading = false ∧ AsyncLoader.init.1.data = Option.none ∧
      AsyncLoader.init.1.request_count = 0) ∧
    ((AsyncLoader.update AsyncLoader.init.1 .load).1.loading = true) ∧
    ((AsyncLoader.update AsyncLoader.init.1 .load).2.tasks.length = 1) ∧
    (∀ m : AsyncLoader.AsyncApp, m.loading = true →
      AsyncLoader.update m .load = (m, Command.none)) ∧
    ((AsyncLoader.update (AsyncLoader.update AsyncLoader.init.1 .load).1
        (.dataLoaded "payload")).1 =
      { data := some "payload", loading := false, request_count := 1 }) ∧
    ((AsyncLoader.update (AsyncLoader.update AsyncLoader.init.1 .load).1
        (.dataLoaded "payload")).2.tasks.length = 0) := by
  refine ⟨⟨rfl, rfl, rfl⟩, rfl, rfl, ?_, ?_, rfl⟩
  · intro m hm
    simp [AsyncLoader.update, hm]
  · rfl

/-- C8 witness: `Load` on a concrete already-loading model is dropped,
returning the unchanged model and `Command::none()`. -/
theorem C8_async_loader_scenario_witness :
    AsyncLoader.update ⟨Option.none, true, 0⟩ .load =
      (⟨Option.none, true, 0⟩, Command.none) :=
  C8_async_loader_scenario.2.2.2.1 ⟨Option.none, true, 0⟩ rfl

/-- C9 counterexample: the claim says that on the frame where the derived
subscription changes from `none()` to the counter example's interval
subscription, the driver cancels no running task and the interval carries
a distinct present token `B`.  In the code, `none()`'s pending stream was
spawned as a task, `interval` carries no token at all
(`from_stream` sets `token: None`), so the `(Some, Some)` early-return
never fires and the driver takes and aborts the running pending-stream
task. -/
theorem C9_restart_scenario_counterexample :
    ((ElmApp.restart_subscription
        ⟨some SubStream.pending, some TokenValue.unit⟩
        (CounterExample.subscription { count := 0, auto := true })).2 =
      some SubStream.pending) ∧
    ((CounterExample.subscription { count := 0, auto := true }).token =
      Option.none) := by
  exact ⟨rfl, rfl⟩

/-- C9 (amended): when the derived subscription changes from `none()`
(token `Some(())`, running pending-stream task) to the interval
subscription (which carries no token), the driver cancels the running
pending-stream task, starts the interval's stream task and stores `None`
as the token; when it changes back to `none()`, the driver cancels the
interval's task and runs the non-emitting pending stream (whose every
trace is empty) with the `Some(())` token again. -/
theorem C9_amended_restart_scenario :
    (ElmApp.restart_subscription
        ⟨some SubStream.pending, some TokenValue.unit⟩
        (CounterExample.subscription { count := 0, auto := true }) =
      (⟨some (SubStream.interval 1000 fun _ => CounterExample.Message.tick),
          Option.none⟩,
        some SubStream.pending)) ∧
    (ElmApp.restart_subscription
        ⟨some (SubStream.interval 1000 fun _ => CounterExample.Message.tick),
          Option.none⟩
        (CounterExample.subscription { count := 0, auto := false }) =
      (⟨some SubStream.pending, some TokenValue.unit⟩,
        some (SubStream.interval 1000 fun _ => CounterExample.Message.tick))) ∧
    (∀ (vs : List CounterExample.Message) (t : SubStream CounterExample.Message),
      EmitsTrace SubStream.pending vs t → vs = []) := by
  refine ⟨rfl, rfl, ?_⟩
  intro vs t h
  exact (pending_trace vs t h).1

/-- C9 (amended) witness: the empty trace of the non-emitting stream. -/
theorem C9_amended_restart_scenario_witness :
    ([] : List CounterExample.Message) = [] :=
  C9_amended_restart_scenario.2.2 [] SubStream.pending .nil

/-- C10: `Subscription::interval` and `Subscription::interval_with` carry
no identity token (`from_stream` sets `token: None`), so the driver's diff
step aborts the running task (if any) and restarts them on every diff;
only an explicit `with_token` gives them a present token. -/
theorem C10_interval_no_token {Msg : Type} (d : Nat) (m : Msg) (f : Nat → Msg)
    (st : SubsState Msg) (t : SubscriptionToken) :
    ((Subscription.interval d m).token = Option.none) ∧
    ((Subscription.interval_with d f).token = Option.none) ∧
    (ElmApp.restart_subscription st (Subscription.interval d m) =
      ({ subscription_task := some (SubStream.interval d fun _ => m),
          subscription_token := Option.none }, st.subscription_task)) ∧
    (ElmApp.restart_subscription st (Subscription.interval_with d f) =
      ({ subscription_task := some (SubStream.interval d f),
          subscription_token := Option.none }, st.subscription_task)) ∧
    (((Subscription.interval d m).with_token t).token = some t) := by
  refine ⟨rfl, rfl, ?_, ?_, rfl⟩ <;>
    cases h : st.subscription_token <;>
      simp [ElmApp.restart_subscription, Subscription.identity,
        Subscription.interval, Subscription.interval_with, Subscription.from_stream, h]

/-- C10 witness: a concrete interval subscription diffed against a running
task with a stored token is still aborted and restarted. -/
theorem C10_interval_no_token_witness :
    ((Subscription.interval 5 (3 : Nat)).token = Option.none) ∧
    (ElmApp.restart_subscription
        ⟨some SubStream.pending, some TokenValue.unit⟩
        (Subscription.interval 5 (3 : Nat)) =
      ({ subscription_task := some (SubStream.interval 5 fun _ => 3),
          subscription_token := Option.none }, some SubStream.pending)) :=
  ⟨(C10_interval_no_token 5 3 (fun _ => 3)
      ⟨some SubStream.pending, some TokenValue.unit⟩ TokenValue.unit).1,
    (C10_interval_no_token 5 3 (fun _ => 3)
      ⟨some SubStream.pending, some TokenValue.unit⟩ TokenValue.unit).2.2.1⟩

end EguiElm
